import Mathlib

/-!
Verification of the LiteLLM embedder fragment of pgai
(`pgai/vectorizer/embedders/litellm.py`) and of its batched-invocation
subsystem (`BatchApiCaller`, declared in `pgai/vectorizer/embeddings.py`).

The embedder code is translated directly from `litellm.py`.  The
`BatchApiCaller` / batch-splitting engine lives in `embeddings.py`, which is
not part of the provided sources, so those definitions are modelled from the
specification (each such definition says so in its doc comment).

Modelling conventions:
- Python `async` calls are modelled as pure functions; a fallible provider
  call is a function into `Except`.
- Embedding vectors are opaque to this subsystem (no arithmetic is ever
  performed on their elements), so their float elements are modelled as
  integers.
- Raising an exception is modelled as returning `Except.error`.
- The third-party provider-resolution function `litellm.get_llm_provider`
  is an external collaborator and is kept abstract: theorems quantify over
  an arbitrary resolution function `String → String`.
-/

namespace Pgai

/-- A document to embed: an opaque text string. -/
abbrev StringDocument := String

/-- An embedding vector.  Its elements are opaque to this subsystem, which
only moves vectors around, so the float elements are modelled as integers. -/
abbrev EmbeddingVector := List Int

/-- Token-usage accounting record (`Usage` in `pgai/vectorizer/embeddings.py`). -/
structure Usage where
  prompt_tokens : Nat
  total_tokens : Nat
deriving DecidableEq, Repr

/-- The unit returned by one provider call and by the whole request
(`EmbeddingResponse` in `pgai/vectorizer/embeddings.py`). -/
structure EmbeddingResponse where
  embeddings : List EmbeddingVector
  usage : Usage
deriving DecidableEq, Repr

/-- One entry of the raw provider response's `data` sequence. -/
structure RawDataEntry where
  embedding : EmbeddingVector
deriving DecidableEq, Repr

/-- The raw usage record optionally reported by the provider. -/
structure RawUsage where
  prompt_tokens : Nat
  total_tokens : Nat
deriving DecidableEq, Repr

/-- The raw response of `litellm.aembedding`: an ordered `data` sequence of
embedding entries and an optional usage record. -/
structure RawEmbeddingResponse where
  data : List RawDataEntry
  usage : Option RawUsage
deriving DecidableEq, Repr

/-- The `UnknownProviderError` exception of `litellm.py`, carrying the
unresolved provider identifier it was raised with. -/
structure UnknownProviderError where
  provider : String
deriving DecidableEq, Repr

/-- `LiteLLM._max_chunks_per_batch` (litellm.py lines 61-83): match on the
provider identifier resolved for the configured model and return the
hardcoded batch limit; raise `UnknownProviderError` (modelled as
`Except.error`) on any other identifier.  The argument is the
`custom_llm_provider` component returned by `litellm.get_llm_provider`. -/
def _max_chunks_per_batch (custom_llm_provider : String) :
    Except UnknownProviderError Nat :=
  match custom_llm_provider with
  | "cohere" => .ok 96
  | "openai" => .ok 2048
  | "azure" => .ok 1024
  | "bedrock" => .ok 2048
  | "huggingface" => .ok 1024
  | "mistral" => .ok 1024
  | "vertex" => .ok 1024
  | "voyage" => .ok 128
  | p => .error { provider := p }

/-- The eight provider identifiers present in the fixed mapping of
`_max_chunks_per_batch`. -/
def knownProviders : List String :=
  ["cohere", "openai", "azure", "bedrock", "huggingface", "mistral",
   "vertex", "voyage"]

/-- The provider-to-limit pairs hardcoded in `_max_chunks_per_batch`. -/
def providerLimits : List (String × Nat) :=
  [("cohere", 96), ("openai", 2048), ("azure", 1024), ("bedrock", 2048),
   ("huggingface", 1024), ("mistral", 1024), ("vertex", 1024),
   ("voyage", 128)]

/-- Translation step of `LiteLLM.call_embed_api` (litellm.py lines 93-103):
turn the raw provider response into an `EmbeddingResponse` whose embeddings
are the `embedding` fields of the `data` entries in order, and whose usage
copies the provider's usage, defaulting to zeros when it is absent. -/
def call_embed_api (response : RawEmbeddingResponse) : EmbeddingResponse :=
  { embeddings := response.data.map (fun d => d.embedding),
    usage :=
      match response.usage with
      | some u =>
        { prompt_tokens := u.prompt_tokens, total_tokens := u.total_tokens }
      | none => { prompt_tokens := 0, total_tokens := 0 } }

/-- The process-global mutable state of the `litellm` library that
`call_embed_api` touches. -/
structure LitellmGlobals where
  suppress_debug_info : Bool
deriving DecidableEq, Repr

/-- Stateful view of `LiteLLM.call_embed_api` (litellm.py lines 85-103): it
first sets the process-global flag `litellm.suppress_debug_info` to `True`,
then issues `litellm.aembedding` (an external collaborator, abstracted as a
function of the global state and the input documents), then translates the
raw response.  Returns the global state after the call together with the
translated result. -/
def call_embed_api_effect {ε : Type}
    (aembedding : LitellmGlobals → List StringDocument →
      Except ε RawEmbeddingResponse)
    (_g : LitellmGlobals) (documents : List StringDocument) :
    LitellmGlobals × Except ε EmbeddingResponse :=
  let g1 : LitellmGlobals := { suppress_debug_info := true }
  (g1, (aembedding g1 documents).map call_embed_api)

/-- Modelled from the spec: the `BatchSplitter` step of `BatchApiCaller`
(`pgai/vectorizer/embeddings.py`, not in the provided sources).  Partitions
an ordered list into the minimum number of contiguous chunks of length at
most `limit`; the empty input yields zero chunks. -/
def chunkList (limit : Nat) : List α → List (List α)
  | [] => []
  | x :: xs =>
    if limit = 0 then [] else
      (x :: xs).take limit :: chunkList limit ((x :: xs).drop limit)
termination_by xs => xs.length
decreasing_by
  simp [List.length_drop]
  omega

/-- Modelled from the spec: the dispatch loop of
`BatchApiCaller.batch_chunks_and_embed` (`pgai/vectorizer/embeddings.py`,
not in the provided sources).  Invokes `call` once per sub-batch in
submission order, stopping at the first failure.  Also returns the number
of times `call` was invoked, making "zero invocations" provable. -/
def callChunks {ε : Type}
    (call : List StringDocument → Except ε EmbeddingResponse) :
    List (List StringDocument) → Except ε (List EmbeddingResponse) × Nat
  | [] => (.ok [], 0)
  | c :: cs =>
    match call c with
    | .error e => (.error e, 1)
    | .ok r =>
      let rest := callChunks call cs
      (rest.1.map (fun rs => r :: rs), rest.2 + 1)

/-- Modelled from the spec: usage aggregation of `BatchApiCaller`
(`pgai/vectorizer/embeddings.py`, not in the provided sources): sum
`prompt_tokens` and `total_tokens` across all sub-batch usage records. -/
def sumUsage (rs : List EmbeddingResponse) : Usage :=
  { prompt_tokens := (rs.map (fun r => r.usage.prompt_tokens)).sum,
    total_tokens := (rs.map (fun r => r.usage.total_tokens)).sum }

/-- Modelled from the spec: `BatchApiCaller.batch_chunks_and_embed`
(`pgai/vectorizer/embeddings.py`, not in the provided sources) with an
invocation counter.  Splits the documents into provider-sized sub-batches,
calls the embed function once per sub-batch, concatenates the per-sub-batch
embeddings in submission order and sums the usage records; any sub-batch
failure fails the whole request. -/
def batch_chunks_and_embed_instr {ε : Type} (limit : Nat)
    (call : List StringDocument → Except ε EmbeddingResponse)
    (documents : List StringDocument) :
    Except ε EmbeddingResponse × Nat :=
  let rc := callChunks call (chunkList limit documents)
  (rc.1.map (fun rs =>
      { embeddings := (rs.map (fun r => r.embeddings)).flatten,
        usage := sumUsage rs }),
   rc.2)

/-- Modelled from the spec: `BatchApiCaller.batch_chunks_and_embed` as seen
by its caller (result only, counter dropped). -/
def batch_chunks_and_embed {ε : Type} (limit : Nat)
    (call : List StringDocument → Except ε EmbeddingResponse)
    (documents : List StringDocument) : Except ε EmbeddingResponse :=
  (batch_chunks_and_embed_instr limit call documents).1

/-- The `LiteLLM` embedder instance (litellm.py lines 25-39).  Only the
fields the verified claims depend on are carried: the configured model name
and the memoisation slot of the `@cached_property _batcher` (holding the
batch limit the cached `BatchApiCaller` was constructed with).
`api_key_name` and `extra_options` are forwarded opaquely inside the
provider call and never inspected by this subsystem. -/
structure LiteLLM where
  model : String
  batcher_cache : Option Nat
deriving DecidableEq, Repr

/-- `LiteLLM._batcher` (litellm.py lines 57-59) under the memoisation
semantics of Python's `functools.cached_property`: on first access, resolve
the provider of the configured model, look up its batch limit and store the
constructed batcher in the instance; on later accesses return the stored
batcher unchanged.  Returns the batcher's limit and the updated instance,
paired with the number of `litellm.get_llm_provider` resolutions performed
by this access. -/
def LiteLLM.batcher_get (get_llm_provider : String → String)
    (self : LiteLLM) :
    Except UnknownProviderError (Nat × LiteLLM) × Nat :=
  match self.batcher_cache with
  | some limit => (.ok (limit, self), 0)
  | none =>
    match _max_chunks_per_batch (get_llm_provider self.model) with
    | .ok limit => (.ok (limit, { self with batcher_cache := some limit }), 1)
    | .error e => (.error e, 1)

/-- `LiteLLM.embed` (litellm.py lines 42-55) with an invocation counter:
log the chunk count (a pure diagnostic, not modelled), then hand the
document list unchanged to `self._batcher.batch_chunks_and_embed` and
return its result unchanged.  All exceptions live in the caller's single
exception world `Err`; `uerr` injects `UnknownProviderError` into it.
Returns the result, the updated instance and the number of `call`
invocations. -/
def LiteLLM.embed_instr {Err : Type} (uerr : UnknownProviderError → Err)
    (get_llm_provider : String → String) (self : LiteLLM)
    (call : List StringDocument → Except Err EmbeddingResponse)
    (documents : List StringDocument) :
    Except Err EmbeddingResponse × LiteLLM × Nat :=
  match (self.batcher_get get_llm_provider).1 with
  | .error e => (.error (uerr e), self, 0)
  | .ok (limit, self1) =>
    let rc := batch_chunks_and_embed_instr limit call documents
    (rc.1, self1, rc.2)

/-- `LiteLLM.embed` as seen by the pipeline (result only). -/
def LiteLLM.embed {Err : Type} (uerr : UnknownProviderError → Err)
    (get_llm_provider : String → String) (self : LiteLLM)
    (call : List StringDocument → Except Err EmbeddingResponse)
    (documents : List StringDocument) : Except Err EmbeddingResponse :=
  (self.embed_instr uerr get_llm_provider call documents).1

/-- Modelled from the spec: completion events of concurrently executed
sub-batch calls.  `completionOrder` lists submission indices in the order
the calls happen to complete; each event carries the submission index it
belongs to together with that sub-batch's response. -/
def completionResults (call : List StringDocument → EmbeddingResponse)
    (chunks : List (List StringDocument)) (completionOrder : List Nat) :
    List (Nat × EmbeddingResponse) :=
  completionOrder.map (fun i => (i, call (chunks.getD i [])))

/-- Modelled from the spec: reassembly by submission order.  For each
submission index in turn, pick that index's response out of the completion
events; fail if some submission index never completed. -/
def gatherBySubmission (completed : List (Nat × EmbeddingResponse)) :
    List Nat → Option (List EmbeddingResponse)
  | [] => some []
  | i :: is =>
    match completed.find? (fun p => p.1 == i),
        gatherBySubmission completed is with
    | some p, some rest => some (p.2 :: rest)
    | _, _ => none

/-- Modelled from the spec: the whole batched embed with concurrent
sub-batch execution — split, run the calls (completing in
`completionOrder`), reassemble by submission order and concatenate. -/
def batch_embed_scheduled (limit : Nat)
    (call : List StringDocument → EmbeddingResponse)
    (documents : List StringDocument) (completionOrder : List Nat) :
    Option (List EmbeddingVector) :=
  (gatherBySubmission
      (completionResults call (chunkList limit documents) completionOrder)
      (List.range (chunkList limit documents).length)).map
    (fun rs => (rs.map (fun r => r.embeddings)).flatten)

/-! ## General lemmas about the batching engine -/

/-- Concatenating the chunks reproduces the original list. -/
theorem chunkList_flatten {α : Type} (limit : Nat) (h : 0 < limit)
    (xs : List α) : (chunkList limit xs).flatten = xs := by
  induction xs using chunkList.induct limit with
  | case1 => simp [chunkList]
  | case2 x xs hl => omega
  | case3 x xs hl ih =>
    rw [chunkList]
    simp only [if_neg hl, List.flatten_cons, ih, List.take_append_drop]

/-- An unknown provider identifier makes `_max_chunks_per_batch` fail with
an `UnknownProviderError` carrying that identifier. -/
theorem max_chunks_unknown (p : String) (h : p ∉ knownProviders) :
    _max_chunks_per_batch p = .error { provider := p } := by
  unfold _max_chunks_per_batch
  split <;> simp_all [knownProviders]

/-- If every sub-batch call succeeds with the response described by `g`,
the dispatch loop returns all responses in submission order and invokes the
call exactly once per sub-batch. -/
theorem callChunks_ok {ε : Type}
    (call : List StringDocument → Except ε EmbeddingResponse)
    (g : List StringDocument → EmbeddingResponse) :
    ∀ cs : List (List StringDocument), (∀ c ∈ cs, call c = .ok (g c)) →
      callChunks call cs = (.ok (cs.map g), cs.length) := by
  intro cs h
  induction cs with
  | nil => rfl
  | cons c cs ih =>
    have hc := h c (by simp)
    have hrest := ih fun c2 hmem => h c2 (by simp [hmem])
    simp [callChunks, hc, hrest, Except.map]

/-! ## C1 -/

/-- C1: for every provider identifier in the fixed mapping,
`_max_chunks_per_batch` returns exactly the hardcoded batch limit (96 for
cohere, 2048 for openai, 1024 for azure, 2048 for bedrock, 1024 for
huggingface, 1024 for mistral, 1024 for vertex, 128 for voyage), and these
are the only successful outcomes: no other value is ever returned for a
known provider. -/
theorem C1_provider_limit_table (p : String) (n : Nat) :
    _max_chunks_per_batch p = .ok n ↔ (p, n) ∈ providerLimits := by
  constructor
  · intro h
    unfold _max_chunks_per_batch at h
    split at h <;> simp_all [providerLimits]
  · intro h
    simp only [providerLimits, List.mem_cons, List.not_mem_nil, or_false,
      Prod.mk.injEq] at h
    casesm* _ ∨ _, _ ∧ _ <;> subst_vars <;> rfl

/-! ## C2 -/

/-- C2: when the model resolves to a provider identifier outside the eight
keys of the mapping, `embed` fails with an `UnknownProviderError` carrying
that identifier, and the embed-call function is invoked zero times: the
failure happens before any embedding call is issued. -/
theorem C2_unknown_provider_no_call {Err : Type}
    (uerr : UnknownProviderError → Err)
    (get_llm_provider : String → String) (self : LiteLLM)
    (call : List StringDocument → Except Err EmbeddingResponse)
    (documents : List StringDocument)
    (hfresh : self.batcher_cache = none)
    (hp : get_llm_provider self.model ∉ knownProviders) :
    self.embed_instr uerr get_llm_provider call documents =
      (.error (uerr { provider := get_llm_provider self.model }), self, 0) := by
  unfold LiteLLM.embed_instr LiteLLM.batcher_get
  rw [hfresh, max_chunks_unknown _ hp]

/-- Witness for C2: a model resolving to provider `"unknown-xyz"` fails
with that identifier and performs zero embed calls. -/
theorem C2_witness :
    ("unknown-xyz" ∉ knownProviders) ∧
    LiteLLM.embed_instr (fun e => e) (fun _ => "unknown-xyz")
      { model := "some-model", batcher_cache := none }
      (fun _ => .ok { embeddings := [],
                      usage := { prompt_tokens := 0, total_tokens := 0 } })
      ["doc1", "doc2"] =
      (.error { provider := "unknown-xyz" },
       { model := "some-model", batcher_cache := none }, 0) :=
  ⟨by decide,
   C2_unknown_provider_no_call (fun e => e) (fun _ => "unknown-xyz") _ _ _
     rfl (by decide)⟩

/-! ## C3 -/

/-- Looking a submission index up among the completion events yields that
sub-batch's response, wherever the event sits in completion order. -/
theorem find_completionResults
    (call : List StringDocument → EmbeddingResponse)
    (chunks : List (List StringDocument)) :
    ∀ (completionOrder : List Nat) (i : Nat), i ∈ completionOrder →
      (completionResults call chunks completionOrder).find?
          (fun p => p.1 == i) =
        some (i, call (chunks.getD i [])) := by
  intro order i hi
  induction order with
  | nil => cases hi
  | cons j js ih =>
    by_cases hji : j = i
    · subst hji
      simp [completionResults, List.find?_cons_of_pos]
    · have hmem : i ∈ js := by
        rcases List.mem_cons.mp hi with h1 | h1
        · exact absurd h1.symm hji
        · exact h1
      have := ih hmem
      simp only [completionResults, List.map_cons] at this ⊢
      rw [List.find?_cons_of_neg, this]
      simp [hji]

/-- If every submission index finds its response among the completion
events, reassembly succeeds and lists the responses in submission order. -/
theorem gatherBySubmission_eq_map
    (completed : List (Nat × EmbeddingResponse))
    (g : Nat → EmbeddingResponse) :
    ∀ idx : List Nat,
      (∀ i ∈ idx, completed.find? (fun p => p.1 == i) = some (i, g i)) →
      gatherBySubmission completed idx = some (idx.map g) := by
  intro idx h
  induction idx with
  | nil => rfl
  | cons i is ih =>
    have hi := h i (by simp)
    have hrest := ih fun k hk => h k (by simp [hk])
    simp [gatherBySubmission, hi, hrest]

/-- C3: sub-batching never reorders documents.  For every per-document
embedding function, every positive limit, every document list and every
completion order that completes all sub-batches (in whatever order), the
reassembled output is exactly the input documents mapped in place: the
vector at position `i` is the embedding of the document at position `i`,
with reassembly driven by submission order, not completion order. -/
theorem C3_submission_order_preserved
    (f : StringDocument → EmbeddingVector) (u : Usage) (limit : Nat)
    (documents : List StringDocument) (completionOrder : List Nat)
    (hlimit : 0 < limit)
    (hcomplete : ∀ i < (chunkList limit documents).length,
      i ∈ completionOrder) :
    batch_embed_scheduled limit
      (fun chunk => { embeddings := chunk.map f, usage := u })
      documents completionOrder = some (documents.map f) := by
  unfold batch_embed_scheduled
  set call : List StringDocument → EmbeddingResponse :=
    fun chunk => { embeddings := chunk.map f, usage := u } with hcall
  set chunks := chunkList limit documents with hchunks
  have hgather :
      gatherBySubmission (completionResults call chunks completionOrder)
        (List.range chunks.length) =
      some ((List.range chunks.length).map
        (fun i => call (chunks.getD i []))) := by
    apply gatherBySubmission_eq_map
    intro i hi
    exact find_completionResults call chunks completionOrder i
      (hcomplete i (List.mem_range.mp hi))
  rw [hgather]
  have hrange : (List.range chunks.length).map (fun i => chunks.getD i []) =
      chunks := by
    apply List.ext_getElem (by simp)
    intro k hk hk2
    simp only [List.getElem_map, List.getElem_range]
    rw [List.getD_eq_getElem]
  have hcomp : ((List.range chunks.length).map
        (fun i => call (chunks.getD i []))).map
        (fun r => r.embeddings) = chunks.map (fun c => c.map f) := by
    rw [List.map_map]
    have heq : ((fun r : EmbeddingResponse => r.embeddings) ∘
        (fun i => call (chunks.getD i []))) =
        ((fun c : List StringDocument => c.map f) ∘
          (fun i => chunks.getD i [])) := by
      funext i; rfl
    rw [heq, ← List.map_map, hrange]
  have hflat : (chunks.map (fun c => c.map f)).flatten = documents.map f := by
    rw [← List.map_flatten, hchunks, chunkList_flatten limit hlimit]
  simp only [Option.map, hcomp, hflat]

/-- Witness for C3: three documents, limit 2, with the second sub-batch
completing before the first; the output still matches input order. -/
theorem C3_witness :
    (0 < 2 ∧ ∀ i < (chunkList 2 ["aa", "b", "cccc"]).length, i ∈ [1, 0]) ∧
    batch_embed_scheduled 2
      (fun chunk =>
        { embeddings := chunk.map (fun s => [(s.length : Int)]),
          usage := { prompt_tokens := 7, total_tokens := 9 } })
      ["aa", "b", "cccc"] [1, 0] =
      some (["aa", "b", "cccc"].map (fun s => [(s.length : Int)])) :=
  have hlen : ∀ i < (chunkList 2 ["aa", "b", "cccc"]).length, i ∈ [1, 0] := by
    have h2 : chunkList 2 ["aa", "b", "cccc"] = [["aa", "b"], ["cccc"]] := by
      simp [chunkList]
    rw [h2]
    decide
  ⟨⟨by decide, hlen⟩,
   C3_submission_order_preserved (fun s => [(s.length : Int)])
     { prompt_tokens := 7, total_tokens := 9 } 2 ["aa", "b", "cccc"] [1, 0]
     (by decide) hlen⟩

/-! ## C4 -/

/-- C4: when a request is split into sub-batches and every sub-batch call
succeeds, the usage of the whole-request response is the componentwise sum
(`prompt_tokens` and `total_tokens` separately) of the usage records
returned by the individual sub-batch calls. -/
theorem C4_usage_additive {ε : Type} (limit : Nat)
    (call : List StringDocument → Except ε EmbeddingResponse)
    (g : List StringDocument → EmbeddingResponse)
    (documents : List StringDocument)
    (hcall : ∀ c ∈ chunkList limit documents, call c = .ok (g c)) :
    ∃ resp, batch_chunks_and_embed limit call documents = .ok resp ∧
      resp.usage.prompt_tokens =
        ((chunkList limit documents).map
          (fun c => (g c).usage.prompt_tokens)).sum ∧
      resp.usage.total_tokens =
        ((chunkList limit documents).map
          (fun c => (g c).usage.total_tokens)).sum := by
  refine ⟨⟨(((chunkList limit documents).map g).map
      (fun r => r.embeddings)).flatten,
    sumUsage ((chunkList limit documents).map g)⟩, ?_, ?_, ?_⟩
  · unfold batch_chunks_and_embed batch_chunks_and_embed_instr
    rw [callChunks_ok call g _ hcall]
    rfl
  · simp [sumUsage, List.map_map, Function.comp_def]
  · simp [sumUsage, List.map_map, Function.comp_def]

/-- Witness for C4: three sub-batches each reporting usage
`{prompt_tokens := 10, total_tokens := 12}` aggregate to `{30, 36}`. -/
theorem C4_witness :
    ∃ resp, batch_chunks_and_embed 1
      (fun _ => (Except.ok
        { embeddings := [[5]],
          usage := { prompt_tokens := 10, total_tokens := 12 } } :
        Except Unit EmbeddingResponse))
      ["a", "b", "c"] = .ok resp ∧
      resp.usage.prompt_tokens = 30 ∧ resp.usage.total_tokens = 36 := by
  obtain ⟨resp, h1, h2, h3⟩ :=
    C4_usage_additive 1
      (fun _ => (Except.ok
        { embeddings := [[5]],
          usage := { prompt_tokens := 10, total_tokens := 12 } } :
        Except Unit EmbeddingResponse))
      (fun _ =>
        { embeddings := [[5]],
          usage := { prompt_tokens := 10, total_tokens := 12 } })
      ["a", "b", "c"] (fun c _ => rfl)
  refine ⟨resp, h1, ?_, ?_⟩
  · rw [h2]; simp [chunkList]
  · rw [h3]; simp [chunkList]

/-! ## C5 -/

/-- If the calls before `c` succeed and the call on `c` fails with `e`, the
dispatch loop fails with exactly `e` after invoking the call once per
completed sub-batch plus once for the failing one. -/
theorem callChunks_error {ε : Type}
    (call : List StringDocument → Except ε EmbeddingResponse) (e : ε) :
    ∀ (pre : List (List StringDocument)) (c : List StringDocument)
      (post : List (List StringDocument)),
      (∀ c1 ∈ pre, ∃ r, call c1 = .ok r) → call c = .error e →
      callChunks call (pre ++ c :: post) = (.error e, pre.length + 1) := by
  intro pre
  induction pre with
  | nil =>
    intro c post _ hc
    simp [callChunks, hc]
  | cons p ps ih =>
    intro c post hpre hc
    obtain ⟨r, hr⟩ := hpre p (by simp)
    have hrest := ih c post (fun c2 hmem => hpre c2 (by simp [hmem])) hc
    simp [callChunks, hr, hrest, Except.map]

/-- C5: if any sub-batch call fails, the whole embed operation fails with
that error propagated unchanged: no partial embeddings are returned, and
the failing call is issued exactly once (no retry at this layer). -/
theorem C5_failure_propagation {ε : Type} (limit : Nat)
    (call : List StringDocument → Except ε EmbeddingResponse)
    (documents : List StringDocument) (e : ε)
    (pre : List (List StringDocument)) (c : List StringDocument)
    (post : List (List StringDocument))
    (hsplit : chunkList limit documents = pre ++ c :: post)
    (hpre : ∀ c1 ∈ pre, ∃ r, call c1 = .ok r)
    (hc : call c = .error e) :
    batch_chunks_and_embed_instr limit call documents =
      (.error e, pre.length + 1) := by
  unfold batch_chunks_and_embed_instr
  rw [hsplit, callChunks_error call e pre c post hpre hc]
  rfl

/-- Witness for C5: with limit 1 and three documents, a call that fails on
the second sub-batch makes the whole operation fail with that error after
exactly two call invocations. -/
theorem C5_witness :
    batch_chunks_and_embed_instr 1
      (fun ch => if ch = ["b"] then (.error "boom" :
          Except String EmbeddingResponse)
        else .ok { embeddings := [[1]],
                   usage := { prompt_tokens := 1, total_tokens := 1 } })
      ["a", "b", "c"] = (.error "boom", 2) :=
  C5_failure_propagation 1 _ ["a", "b", "c"] "boom" [["a"]] ["b"] [["c"]]
    (by simp [chunkList])
    (by
      intro c1 hc1
      simp only [List.mem_singleton] at hc1
      subst hc1
      exact ⟨_, rfl⟩)
    rfl

/-! ## C6 -/

/-- If every sub-batch call succeeds with as many embeddings as the
sub-batch has documents, the dispatch loop succeeds and the concatenated
embeddings count the concatenated documents. -/
theorem callChunks_length {ε : Type}
    (call : List StringDocument → Except ε EmbeddingResponse) :
    ∀ cs : List (List StringDocument),
      (∀ c ∈ cs, ∃ r, call c = .ok r ∧ r.embeddings.length = c.length) →
      ∃ rs, callChunks call cs = (.ok rs, cs.length) ∧
        ((rs.map (fun r => r.embeddings)).flatten).length =
          cs.flatten.length := by
  intro cs h
  induction cs with
  | nil => exact ⟨[], rfl, rfl⟩
  | cons c cs ih =>
    obtain ⟨r, hr, hrlen⟩ := h c (by simp)
    obtain ⟨rs, hrs, hlen⟩ := ih fun c2 hmem => h c2 (by simp [hmem])
    refine ⟨r :: rs, ?_, ?_⟩
    · simp [callChunks, hr, hrs, Except.map]
    · simp only [List.map_cons, List.flatten_cons, List.length_append,
        hrlen, hlen]

/-- C6: the length of the returned embeddings sequence equals the number of
input documents of the call, at sub-batch granularity (the translated
response of one provider call, given that the provider returns one `data`
entry per input document) and at whole-request granularity (the reassembled
response, given that each sub-batch call satisfies the per-call length
invariant). -/
theorem C6_length_invariant :
    (∀ (raw : RawEmbeddingResponse) (documents : List StringDocument),
      raw.data.length = documents.length →
      (call_embed_api raw).embeddings.length = documents.length) ∧
    (∀ (ε : Type) (limit : Nat)
      (call : List StringDocument → Except ε EmbeddingResponse)
      (documents : List StringDocument), 0 < limit →
      (∀ c ∈ chunkList limit documents,
        ∃ r, call c = .ok r ∧ r.embeddings.length = c.length) →
      ∃ resp, batch_chunks_and_embed limit call documents = .ok resp ∧
        resp.embeddings.length = documents.length) := by
  constructor
  · intro raw documents h
    simpa [call_embed_api] using h
  · intro ε limit call documents hlimit h
    obtain ⟨rs, hrs, hlen⟩ := callChunks_length call (chunkList limit documents) h
    refine ⟨⟨(rs.map (fun r => r.embeddings)).flatten, sumUsage rs⟩, ?_, ?_⟩
    · unfold batch_chunks_and_embed batch_chunks_and_embed_instr
      rw [hrs]
      rfl
    · show ((rs.map (fun r => r.embeddings)).flatten).length = documents.length
      rw [hlen, chunkList_flatten limit hlimit]

/-- Witness for C6: a raw response with two data entries for two documents
translates to two embeddings, and a three-document request at limit 1 whose
stub call returns one embedding per document reassembles to three
embeddings. -/
theorem C6_witness :
    (call_embed_api
        { data := [{ embedding := [1] }, { embedding := [2] }],
          usage := none }).embeddings.length = 2 ∧
    ∃ resp, batch_chunks_and_embed 1
        (fun c => (Except.ok
          { embeddings := c.map (fun _ => [0]),
            usage := { prompt_tokens := 1, total_tokens := 1 } } :
          Except Unit EmbeddingResponse))
        ["a", "b", "c"] = .ok resp ∧
      resp.embeddings.length = 3 :=
  ⟨C6_length_invariant.1
      { data := [{ embedding := [1] }, { embedding := [2] }], usage := none }
      ["x", "y"] rfl,
   C6_length_invariant.2 Unit 1
     (fun c => .ok { embeddings := c.map (fun _ => [0]),
                     usage := { prompt_tokens := 1, total_tokens := 1 } })
     ["a", "b", "c"] (by decide)
     (fun c _ => ⟨_, rfl, by simp⟩)⟩

/-! ## C7 -/

/-- C7: `call_embed_api` translates the raw provider response into an
`EmbeddingResponse` whose embeddings are exactly the `embedding` fields of
the response's `data` entries in their given order, and whose usage copies
the provider's `prompt_tokens` and `total_tokens` when usage is reported
and is `{prompt_tokens := 0, total_tokens := 0}` when it is not. -/
theorem C7_response_translation (raw : RawEmbeddingResponse) :
    (call_embed_api raw).embeddings = raw.data.map (fun d => d.embedding) ∧
    (call_embed_api raw).usage =
      (match raw.usage with
       | some u => { prompt_tokens := u.prompt_tokens,
                     total_tokens := u.total_tokens }
       | none => { prompt_tokens := 0, total_tokens := 0 }) := by
  refine ⟨rfl, ?_⟩
  cases h : raw.usage <;> simp [call_embed_api, h]

/-! ## C8 -/

/-- C8: the batcher is computed lazily at most once per embedder instance.
On a fresh instance whose provider resolves to a known limit, the first
access constructs the batcher, resolving the provider exactly once and
storing the result; every subsequent access — under any resolution
function whatsoever — returns the identical cached batcher, leaves the
instance unchanged and performs zero provider resolutions. -/
theorem C8_batcher_cached_once (get_llm_provider : String → String)
    (self : LiteLLM) (limit : Nat)
    (hfresh : self.batcher_cache = none)
    (hok : _max_chunks_per_batch (get_llm_provider self.model) = .ok limit) :
    ∃ self1, self.batcher_get get_llm_provider = (.ok (limit, self1), 1) ∧
      self1.batcher_cache = some limit ∧
      ∀ resolve2 : String → String,
        self1.batcher_get resolve2 = (.ok (limit, self1), 0) := by
  refine ⟨{ self with batcher_cache := some limit }, ?_, rfl, ?_⟩
  · unfold LiteLLM.batcher_get
    rw [hfresh, hok]
  · intro resolve2
    rfl

/-- Witness for C8: a fresh instance for a model resolving to `"openai"`
caches the 2048 batcher on first access and reuses it afterwards. -/
theorem C8_witness :
    ({ model := "text-embedding-3-small", batcher_cache := none } :
        LiteLLM).batcher_cache = none ∧
    _max_chunks_per_batch ((fun _ => "openai")
      ({ model := "text-embedding-3-small", batcher_cache := none } :
        LiteLLM).model) = .ok 2048 ∧
    ∃ self1, ({ model := "text-embedding-3-small", batcher_cache := none } :
        LiteLLM).batcher_get (fun _ => "openai") = (.ok (2048, self1), 1) ∧
      self1.batcher_cache = some 2048 ∧
      ∀ resolve2 : String → String,
        self1.batcher_get resolve2 = (.ok (2048, self1), 0) :=
  ⟨rfl, rfl,
   C8_batcher_cached_once (fun _ => "openai")
     { model := "text-embedding-3-small", batcher_cache := none } 2048
     rfl rfl⟩

/-! ## C9 -/

/-- C9: every invocation of `call_embed_api`, whatever the initial global
state, the provider-call behaviour and the input documents, leaves the
process-global `litellm.suppress_debug_info` flag set to `true` after it
returns (the mutation is never restored), and the provider call itself is
issued under the already-mutated global state.  The flag lives in the
process-global `LitellmGlobals` state, not in any embedder instance, so
the mutation is shared across all embedder instances. -/
theorem C9_suppress_debug_global {ε : Type}
    (aembedding : LitellmGlobals → List StringDocument →
      Except ε RawEmbeddingResponse)
    (g : LitellmGlobals) (documents : List StringDocument) :
    (call_embed_api_effect aembedding g documents).1.suppress_debug_info =
      true ∧
    (call_embed_api_effect aembedding g documents).2 =
      (aembedding { suppress_debug_info := true } documents).map
        call_embed_api :=
  ⟨rfl, rfl⟩

/-! ## C10 -/

/-- C10: `embed` performs no validation or transformation of its input.
For every document list — the empty list included — it hands the list
unchanged to the batcher's `batch_chunks_and_embed` and returns that
result unchanged, raising no error of its own. -/
theorem C10_embed_forwards {Err : Type} (uerr : UnknownProviderError → Err)
    (get_llm_provider : String → String) (self : LiteLLM)
    (call : List StringDocument → Except Err EmbeddingResponse)
    (documents : List StringDocument) (limit : Nat) (self1 : LiteLLM)
    (hbatcher : (self.batcher_get get_llm_provider).1 = .ok (limit, self1)) :
    self.embed uerr get_llm_provider call documents =
      batch_chunks_and_embed limit call documents := by
  unfold LiteLLM.embed LiteLLM.embed_instr
  rw [hbatcher]
  rfl

/-- Witness for C10: an embedder for an `"openai"`-resolved model forwards
the empty document list to the batcher unchanged; the batcher then answers
with the empty response and no error is raised. -/
theorem C10_witness :
    (({ model := "m", batcher_cache := none } : LiteLLM).batcher_get
        (fun _ => "openai")).1 =
      .ok (2048, { model := "m", batcher_cache := some 2048 }) ∧
    ({ model := "m", batcher_cache := none } : LiteLLM).embed (fun e => e)
        (fun _ => "openai")
        (fun _ => (.ok ⟨[[7]], ⟨1, 1⟩⟩ :
          Except UnknownProviderError EmbeddingResponse)) [] =
      batch_chunks_and_embed 2048
        (fun _ => .ok (⟨[[7]], ⟨1, 1⟩⟩ : EmbeddingResponse)) [] ∧
    batch_chunks_and_embed 2048
        (fun _ => (.ok ⟨[[7]], ⟨1, 1⟩⟩ :
          Except UnknownProviderError EmbeddingResponse)) [] =
      .ok (⟨[], ⟨0, 0⟩⟩ : EmbeddingResponse) :=
  ⟨rfl,
   C10_embed_forwards (fun e => e) (fun _ => "openai")
     { model := "m", batcher_cache := none } _ [] 2048
     { model := "m", batcher_cache := some 2048 } rfl,
   by simp [batch_chunks_and_embed, batch_chunks_and_embed_instr, chunkList,
     callChunks, sumUsage, Except.map]⟩

end Pgai
